import Mathlib

/-!
Shallow embedding of the Quiz Master application core (src/models.py,
src/main.py, src/tasks.py).

Modelling conventions:
* machine wall-clock instants (`datetime`) are integers counting seconds
  (`Time := Int`); both `datetime.utcnow()` and `datetime.now()` of a single
  request are modelled by the one instant `now` passed to the handler;
* Python `float` score arithmetic is modelled exactly over `ℚ`;
* nullable columns are `Option`-valued (aliased `Opt`, since the repository
  also has an `Option` table, embedded below under the same name);
* non-behavioural columns (names, descriptions, texts, emails, hashes) are
  omitted; every behavioural column and every branch of the embedded
  handlers follows the Python source line by line.
-/

namespace QuizMaster

/-- Alias for the prelude `Option` type, taken before the repository's own
`Option` table shadows the name inside this namespace. -/
abbrev Opt := Option

/-- `datetime` instants, in seconds. -/
abbrev Time := Int

/-- `users` table (models.py `User`): only the behavioural columns. -/
structure User where
  id : Nat
  is_admin : Bool
deriving DecidableEq

/-- `questions` table (models.py `Question`); its options live in the global
options table of `Env`, mirroring the relational store. -/
structure Question where
  id : Nat
deriving DecidableEq

/-- `options` table (models.py `Option`): option id, owning question,
correctness flag. -/
structure Option where
  id : Nat
  question_id : Nat
  is_correct : Bool
deriving DecidableEq

/-- `quizzes` table (models.py `Quiz`) with its owned questions. -/
structure Quiz where
  id : Nat
  pass_percentage : ℚ
  is_scheduled : Bool
  start_datetime : Opt Time
  end_datetime : Opt Time
  time_limit : Opt Nat
  questions : List Question
deriving DecidableEq

/-- `quiz_attempts` table (models.py `QuizAttempt`): nullable score,
completion flag, creation timestamp. -/
structure QuizAttempt where
  id : Nat
  user_id : Nat
  quiz_id : Nat
  date_taken : Time
  score : Opt ℚ
  is_completed : Bool
deriving DecidableEq

/-- `quiz_responses` table (models.py `QuizResponse`). -/
structure QuizResponse where
  attempt_id : Nat
  question_id : Nat
  option_id : Nat
deriving DecidableEq

/-- models.py `Quiz.is_available` (lines 73-87): unscheduled quizzes are
always available; a scheduled quiz is unavailable strictly before a present
`start_datetime` or strictly after a present `end_datetime`. -/
def Quiz.is_available (q : Quiz) (now : Time) : Bool :=
  if !q.is_scheduled then true
  else if (match q.start_datetime with
           | some s => decide (now < s)
           | none => false) then false
  else if (match q.end_datetime with
           | some e => decide (e < now)
           | none => false) then false
  else true

/-- models.py `Quiz.registration_open` (lines 89-92): constantly true. -/
def Quiz.registration_open (_q : Quiz) : Bool := true

/-- models.py `Quiz.time_until_start` (lines 94-104). -/
def Quiz.time_until_start (q : Quiz) (now : Time) : Opt Time :=
  if !q.is_scheduled then none
  else match q.start_datetime with
    | none => none
    | some s => if decide (s ≤ now) then none else some (s - now)

/-- models.py `QuizAttempt.passed` (lines 158-162): a derived property,
recomputed from the stored score and the quiz threshold on every read
(`None` score reads as not passed). -/
def QuizAttempt.passed (a : QuizAttempt) (q : Quiz) : Bool :=
  match a.score with
  | none => false
  | some s => decide (q.pass_percentage ≤ s)

/-- Static tables of the store: quizzes (with their questions) and the
global options table searched by `Option.query.get`. -/
structure Env where
  quizzes : List Quiz
  options : List Option

/-- Mutable tables of the store plus the per-user Flask session binding
`session['current_attempt_id']` and the autoincrement counter for attempt
primary keys. -/
structure St where
  attempts : List QuizAttempt
  responses : List QuizResponse
  session : List (Nat × Nat)
  nextId : Nat
deriving DecidableEq

/-- The empty store a fresh database starts from. -/
def St.init : St := ⟨[], [], [], 1⟩

/-- Responses a handler can produce: a redirect, a rendered page, a 404 from
`get_or_404`, or an unhandled exception (rolled back, nothing committed). -/
inductive Page where
  | redirectDashboard
  | redirectQuizList
  | redirectResults (attemptId : Nat)
  | renderTakeQuiz (quizId : Nat)
  | renderAttemptQuiz (quizId attemptId : Nat)
  | notFound
  | serverError
deriving DecidableEq

/-- True exactly on a redirect to the results page. -/
def Page.isRedirectResults : Page → Bool
  | Page.redirectResults _ => true
  | _ => false

/-- Flash severities used by the handlers. -/
inductive Sev where
  | danger
  | warning
  | success
deriving DecidableEq

/-- One tag per distinct `flash(...)` call site in the embedded handlers. -/
inductive Msg where
  | adminsCannotAttempt
  | scheduledToStart
  | quizEnded
  | notAvailable
  | registrationClosed
  | alreadyCompleted
  | noQuestions
  | incompleteRecorded
  | invalidAttempt
  | submitted
deriving DecidableEq

/-- A flashed message with its severity. -/
abbrev Flash := Msg × Sev

/-- `Quiz.query.get_or_404(quiz_id)`. -/
def findQuiz (env : Env) (qid : Nat) : Opt Quiz :=
  env.quizzes.find? (fun q => q.id == qid)

/-- `Option.query.get(option_id)`: primary-key lookup over the whole
options table, with no check of which question owns the row. -/
def findOption (opts : List Option) (oid : Nat) : Opt Option :=
  opts.find? (fun o => o.id == oid)

/-- The row filter `user_id=..., quiz_id=..., is_completed=False` shared by
the incomplete-attempt queries of main.py. -/
def pairPred (uid qid : Nat) (a : QuizAttempt) : Bool :=
  a.user_id == uid && a.quiz_id == qid && !a.is_completed

/-- `QuizAttempt.query.filter_by(user_id, quiz_id, is_completed=True).first()`. -/
def findCompleted (st : St) (uid qid : Nat) : Opt QuizAttempt :=
  st.attempts.find? (fun a => a.user_id == uid && a.quiz_id == qid && a.is_completed)

/-- `QuizAttempt.query.filter_by(user_id, quiz_id, is_completed=False).first()`. -/
def findIncomplete (st : St) (uid qid : Nat) : Opt QuizAttempt :=
  st.attempts.find? (pairPred uid qid)

/-- `session.get('current_attempt_id')` for the requesting user. -/
def lookupSession (st : St) (uid : Nat) : Opt Nat :=
  (st.session.find? (fun p => p.1 == uid)).map (fun p => p.2)

/-- The warning flashed when a quiz is unavailable (main.py lines 251-261
and 311-321): a countdown when the quiz has not started, an ended notice
when past the end, a generic notice for an unscheduled unavailable quiz
(dead branch, kept for fidelity). -/
def unavailMsg (q : Quiz) (now : Time) : Msg :=
  if q.is_scheduled then
    match q.time_until_start now with
    | some _ => Msg.scheduledToStart
    | none => Msg.quizEnded
  else Msg.notAvailable

/-- main.py `take_quiz` (lines 242-300), the quiz info page: admin guard,
404, availability, registration, completed-attempt and empty-question
checks in source order; then any lingering incomplete attempt is recorded
as completed with score 0 and the info page is rendered. -/
def take_quiz (env : Env) (u : User) (qid : Nat) (now : Time) (st : St) :
    St × Page × List Flash :=
  if u.is_admin then (st, Page.redirectDashboard, [(Msg.adminsCannotAttempt, Sev.danger)])
  else match findQuiz env qid with
  | none => (st, Page.notFound, [])
  | some quiz =>
    if !(quiz.is_available now) then
      (st, Page.redirectQuizList, [(unavailMsg quiz now, Sev.warning)])
    else if !quiz.registration_open then
      (st, Page.redirectQuizList, [(Msg.registrationClosed, Sev.warning)])
    else match findCompleted st u.id qid with
    | some prev => (st, Page.redirectResults prev.id, [(Msg.alreadyCompleted, Sev.warning)])
    | none =>
      if quiz.questions.isEmpty then
        (st, Page.redirectQuizList, [(Msg.noQuestions, Sev.warning)])
      else match findIncomplete st u.id qid with
      | some inc =>
        ({ st with attempts := st.attempts.map (fun a =>
             if a.id == inc.id then { a with is_completed := true, score := some 0 } else a) },
         Page.renderTakeQuiz qid, [(Msg.incompleteRecorded, Sev.warning)])
      | none => (st, Page.renderTakeQuiz qid, [])

/-- main.py `start_quiz_attempt` (lines 302-365): admin guard, 404,
availability, registration and completed-attempt checks in source order —
note there is no check that the quiz has questions — then every incomplete
attempt of the (user, quiz) pair is deleted (their responses cascading with
them), a fresh incomplete attempt is inserted, and the session is pointed
at it. -/
def start_quiz_attempt (env : Env) (u : User) (qid : Nat) (now : Time) (st : St) :
    St × Page × List Flash :=
  if u.is_admin then (st, Page.redirectDashboard, [(Msg.adminsCannotAttempt, Sev.danger)])
  else match findQuiz env qid with
  | none => (st, Page.notFound, [])
  | some quiz =>
    if !(quiz.is_available now) then
      (st, Page.redirectQuizList, [(unavailMsg quiz now, Sev.warning)])
    else if !quiz.registration_open then
      (st, Page.redirectQuizList, [(Msg.registrationClosed, Sev.warning)])
    else match findCompleted st u.id qid with
    | some prev => (st, Page.redirectResults prev.id, [(Msg.alreadyCompleted, Sev.warning)])
    | none =>
      let deletedIds := (st.attempts.filter (pairPred u.id qid)).map QuizAttempt.id
      let newAtt : QuizAttempt := ⟨st.nextId, u.id, qid, now, none, false⟩
      ({ attempts := st.attempts.filter (fun a => !(pairPred u.id qid a)) ++ [newAtt],
         responses := st.responses.filter (fun r => !(deletedIds.contains r.attempt_id)),
         session := (u.id, newAtt.id) :: st.session.filter (fun p => p.1 != u.id),
         nextId := st.nextId + 1 },
       Page.renderAttemptQuiz qid newAtt.id, [])

/-- The scoring loop of main.py `submit_quiz` (lines 386-397): walk the
quiz's questions in order; an unanswered question is skipped; an answered
one records a response pairing the question with whatever option row the
submitted id names globally and bumps the counter when that row is marked
correct.  A submitted id naming no option row raises (`None.is_correct`),
aborting the request before anything commits — embedded as `none`. -/
def gradeQuestions (opts : List Option) (form : Nat → Opt Nat) (aid : Nat) :
    List Question → Opt (List QuizResponse × Nat)
  | [] => some ([], 0)
  | q :: qs =>
    match form q.id with
    | none => gradeQuestions opts form aid qs
    | some oid =>
      match findOption opts oid with
      | none => none
      | some o =>
        match gradeQuestions opts form aid qs with
        | none => none
        | some (rs, c) =>
          some (⟨aid, q.id, o.id⟩ :: rs, (if o.is_correct then 1 else 0) + c)

/-- main.py line 400: `(correct_answers / total_questions) * 100 if
total_questions > 0 else 0`, over exact rationals. -/
def scorePercentage (correct total : Nat) : ℚ :=
  if total > 0 then ((correct : ℚ) / (total : ℚ)) * 100 else 0

/-- Specification-side count: a question is answered correctly when the
submission selects an option id whose (global) option row is marked
correct. -/
def selectedCorrect (opts : List Option) (form : Nat → Opt Nat) (q : Question) : Bool :=
  match form q.id with
  | none => false
  | some oid =>
    match findOption opts oid with
    | none => false
    | some o => o.is_correct

/-- main.py `submit_quiz` (lines 367-410): admin guard, 404, session
attempt check (`if not attempt_id` — a missing or zero id is invalid),
then the scoring loop; a dangling submitted option id, or a session id
naming no attempt row (`attempt.score` on `None`), raises after the loop
with nothing committed; otherwise the responses are inserted, the attempt
row gets the computed score and `is_completed = True`, the session key is
popped and the user is redirected to the results page. -/
def submit_quiz (env : Env) (u : User) (qid : Nat) (form : Nat → Opt Nat) (st : St) :
    St × Page × List Flash :=
  if u.is_admin then (st, Page.redirectDashboard, [(Msg.adminsCannotAttempt, Sev.danger)])
  else match findQuiz env qid with
  | none => (st, Page.notFound, [])
  | some quiz =>
    match lookupSession st u.id with
    | none => (st, Page.redirectQuizList, [(Msg.invalidAttempt, Sev.danger)])
    | some aid =>
      if aid == 0 then (st, Page.redirectQuizList, [(Msg.invalidAttempt, Sev.danger)])
      else match gradeQuestions env.options form aid quiz.questions with
      | none => (st, Page.serverError, [])
      | some (rs, c) =>
        match st.attempts.find? (fun a => a.id == aid) with
        | none => (st, Page.serverError, [])
        | some _ =>
          let s := scorePercentage c quiz.questions.length
          ({ st with
             attempts := st.attempts.map (fun a =>
               if a.id == aid then { a with score := some s, is_completed := true } else a),
             responses := st.responses ++ rs,
             session := st.session.filter (fun p => p.1 != u.id) },
           Page.redirectResults aid, [(Msg.submitted, Sev.success)])

/-- The row filter of tasks.py lines 362-366: incomplete and created before
`utcnow() - timedelta(hours=24)`. -/
def stalePred (now : Time) (a : QuizAttempt) : Bool :=
  !a.is_completed && decide (a.date_taken < now - 86400)

/-- tasks.py `cleanup_incomplete_attempts_task` (lines 356-382): delete
every incomplete attempt created before the 24-hour cutoff, their response
rows cascading with them, and return how many attempts were removed. -/
def cleanup_incomplete_attempts (st : St) (now : Time) : St × Nat :=
  let old := st.attempts.filter (stalePred now)
  let oldIds := old.map QuizAttempt.id
  ({ st with
     attempts := st.attempts.filter (fun a => !(stalePred now a)),
     responses := st.responses.filter (fun r => !(oldIds.contains r.attempt_id)) },
   old.length)

/-- The repository operations that create or mutate quiz-attempt rows (the
remaining routes only cascade-delete attempts when a whole user or quiz is
removed). -/
inductive Op where
  | takeOp (u : User) (qid : Nat) (now : Time)
  | startOp (u : User) (qid : Nat) (now : Time)
  | submitOp (u : User) (qid : Nat) (form : Nat → Opt Nat)
  | cleanupOp (now : Time)

/-- Net store effect of one operation. -/
def step (env : Env) (st : St) : Op → St
  | Op.takeOp u qid now => (take_quiz env u qid now st).1
  | Op.startOp u qid now => (start_quiz_attempt env u qid now st).1
  | Op.submitOp u qid form => (submit_quiz env u qid form st).1
  | Op.cleanupOp now => (cleanup_incomplete_attempts st now).1

/-- Store reached from the empty database by a sequence of operations. -/
def runOps (env : Env) (ops : List Op) : St :=
  ops.foldl (step env) St.init

/-- At most one incomplete attempt per (user, quiz) pair. -/
def InvAtMostOne (st : St) : Prop :=
  ∀ uid qid, st.attempts.countP (pairPred uid qid) ≤ 1

/-- Every response row is attached to an existing attempt row (so deleting
an attempt removed its responses). -/
def RespAttached (st : St) : Prop :=
  ∀ r ∈ st.responses, ∃ a ∈ st.attempts, a.id = r.attempt_id

/-! ### Monthly report task (tasks.py `send_monthly_report_task`, lines 153-259)

The month-window filter needs calendar dates, so this model uses
year/month/day triples ordered lexicographically (time of day plays no role
in the behaviour at issue).  The crucial detail is tasks.py line 171:

  `QuizAttempt.date_taken < datetime(y, m + 1, 1) if m < 12 else datetime(y + 1, 1, 1)`

Python conditional-expression precedence parses this as
`(date_taken < datetime(y, m + 1, 1)) if m < 12 else datetime(y + 1, 1, 1)`,
so in December the third `filter` argument is the bare `datetime` object
rather than a comparison; SQLAlchemy rejects a non-boolean criterion and
the task's catch-all `except` turns that into an error status. -/

/-- A calendar date, ordered lexicographically. -/
structure MDate where
  year : Int
  month : Int
  day : Int
deriving DecidableEq

/-- Strict lexicographic date comparison (`datetime <`). -/
def MDate.ltB (a b : MDate) : Bool :=
  decide (a.year < b.year) ||
    (decide (a.year = b.year) &&
      (decide (a.month < b.month) ||
        (decide (a.month = b.month) && decide (a.day < b.day))))

/-- `datetime >=`. -/
def MDate.geB (a b : MDate) : Bool := !(MDate.ltB a b)

/-- One attempt row as the monthly report sees it: creation date, nullable
score, and the owning quiz's pass threshold (for `attempt.passed`). -/
structure MAttempt where
  date_taken : MDate
  score : Opt ℚ
  pass_percentage : ℚ
deriving DecidableEq

/-- An argument passed to `query.filter(...)`: a date comparison on
`date_taken`, or a bare `datetime` object (not a SQL boolean expression). -/
inductive Criterion where
  | dateGe (b : MDate)
  | dateLt (b : MDate)
  | rawDatetime (d : MDate)
deriving DecidableEq

/-- The two window criteria built by tasks.py lines 170-171, including the
conditional-expression precedence of line 171: for December the second
argument is the bare `datetime(year + 1, 1, 1)`. -/
def monthFilterCriteria (year month : Int) : List Criterion :=
  [Criterion.dateGe ⟨year, month, 1⟩,
   if month < 12 then Criterion.dateLt ⟨year, month + 1, 1⟩
   else Criterion.rawDatetime ⟨year + 1, 1, 1⟩]

/-- Row predicate denoted by a criterion; a bare `datetime` denotes none
(SQLAlchemy raises on it). -/
def criterionPred : Criterion → Opt (MAttempt → Bool)
  | Criterion.dateGe b => some (fun a => MDate.geB a.date_taken b)
  | Criterion.dateLt b => some (fun a => MDate.ltB a.date_taken b)
  | Criterion.rawDatetime _ => none

/-- Apply `query.filter(...)` criteria; any bare `datetime` aborts the
query. -/
def applyCriteria (cs : List Criterion) (l : List MAttempt) : Opt (List MAttempt) :=
  match cs with
  | [] => some l
  | c :: rest =>
    match criterionPred c with
    | none => none
    | some p => applyCriteria rest (l.filter p)

/-- `attempt.passed` as read by the report (None score never passes). -/
def MAttempt.passedB (a : MAttempt) : Bool :=
  match a.score with
  | none => false
  | some s => decide (a.pass_percentage ≤ s)

/-- The generator `attempt.score for attempt in attempts if attempt.score`:
Python truthiness drops both `None` and `0` scores. -/
def truthyScores (l : List MAttempt) : List ℚ :=
  l.filterMap (fun a =>
    match a.score with
    | none => none
    | some s => if s = 0 then none else some s)

/-- Outcome of `send_monthly_report_task` (mail transport elided): the
structured status object the task returns. -/
inductive ReportResult where
  | error
  | noData
  | success (total passed failed : Nat) (avg highest : ℚ)
deriving DecidableEq

/-- tasks.py `send_monthly_report_task` body for one user's attempts at run
time `now`: build the month-window query, bail out with the error status if
the query construction raises, return the no-data status on an empty
window, otherwise aggregate total/passed/failed counts, the average of the
truthy scores over the total attempt count, and the highest truthy score
(default 0). -/
def send_monthly_report (attempts : List MAttempt) (now : MDate) : ReportResult :=
  match applyCriteria (monthFilterCriteria now.year now.month) attempts with
  | none => ReportResult.error
  | some sel =>
    if sel.isEmpty then ReportResult.noData
    else
      let total := sel.length
      let passed := sel.countP MAttempt.passedB
      let avg := if total > 0 then (truthyScores sel).sum / (total : ℚ) else 0
      let highest :=
        match truthyScores sel with
        | [] => (0 : ℚ)
        | x :: xs => xs.foldl max x
      ReportResult.success total passed (total - passed) avg highest

/-- A December run time, tasks.py line 163's `datetime.utcnow()`. -/
def decRunTime : MDate := ⟨2025, 12, 15⟩

/-- One completed, in-window December attempt (80 %, threshold 50 %). -/
def decAttempts : List MAttempt := [⟨⟨2025, 12, 10⟩, some 80, 50⟩]

/-- The same data one month earlier, where the window code is exercised on
its healthy branch. -/
def novRunTime : MDate := ⟨2025, 11, 15⟩

/-- One completed, in-window November attempt. -/
def novAttempts : List MAttempt := [⟨⟨2025, 11, 10⟩, some 80, 50⟩]

/-! ### Concrete fixtures used by witnesses and counterexamples -/

/-- A non-admin user. -/
def uW : User := ⟨5, false⟩

/-- An always-available quiz with two questions. -/
def quizW : Quiz :=
  ⟨1, 50, false, none, none, none, [⟨1⟩, ⟨2⟩]⟩

/-- Options for `quizW`: question 1 owns options 1 (correct) and 2,
question 2 owns options 3 (correct) and 4. -/
def envW : Env :=
  ⟨[quizW], [⟨1, 1, true⟩, ⟨2, 1, false⟩, ⟨3, 2, true⟩, ⟨4, 2, false⟩]⟩

/-- A submission answering question 1 correctly, leaving question 2 blank. -/
def formW (qid : Nat) : Opt Nat := if qid == 1 then some 1 else none

/-- The in-progress attempt row of `uW` on `quizW`. -/
def attW : QuizAttempt := ⟨1, 5, 1, 0, none, false⟩

/-- Store holding `attW` with the session pointing at it. -/
def stW : St := ⟨[attW], [], [(5, 1)], 2⟩

/-- The response rows the scoring loop produces for `formW`. -/
def rsW : List QuizResponse := [⟨1, 1, 1⟩]

/-- A completed attempt of `uW` on `quizW` (full marks). -/
def attDone : QuizAttempt := ⟨3, 5, 1, 0, some 100, true⟩

/-- Store where `uW` has already completed `quizW`. -/
def stDone : St := ⟨[attDone], [], [], 4⟩

/-- A scheduled quiz whose window [0, 10] has passed by `now = 100`. -/
def quizPast : Quiz := ⟨3, 50, true, some 0, some 10, none, [⟨5⟩]⟩

/-- Environment holding only `quizPast`. -/
def envPast : Env := ⟨[quizPast], []⟩

/-- A completed attempt of `uW` on `quizPast`, taken inside the window. -/
def attDonePast : QuizAttempt := ⟨6, 5, 3, 5, some 100, true⟩

/-- Store where `uW` has completed `quizPast`, whose window has now ended. -/
def stPast : St := ⟨[attDonePast], [], [], 7⟩

/-- A quiz with no questions at all. -/
def quizNoQ : Quiz := ⟨2, 50, false, none, none, none, []⟩

/-- Environment holding only the zero-question quiz. -/
def envNoQ : Env := ⟨[quizNoQ], []⟩

/-- An incomplete attempt 24 h 1 s old at run time 200000. -/
def attStale : QuizAttempt := ⟨1, 5, 1, 113599, none, false⟩

/-- An incomplete attempt 23 h 59 min old at run time 200000. -/
def attFresh : QuizAttempt := ⟨2, 5, 1, 113660, none, false⟩

/-- Store holding both cleanup-boundary attempts and a response row of the
stale one. -/
def stClean : St := ⟨[attStale, attFresh], [⟨1, 1, 1⟩], [], 3⟩

/-- An (unreachable but arbitrary) store holding two incomplete attempts of
the same (user, quiz) pair. -/
def stTwo : St := ⟨[⟨1, 5, 1, 0, none, false⟩, ⟨2, 5, 1, 0, none, false⟩], [], [], 3⟩

/-- Options table for the foreign-option scenario: question 1 owns only the
incorrect option 1; the correct option 2 belongs to question 2. -/
def demoOpts : List Option := [⟨1, 1, false⟩, ⟨2, 2, true⟩]

/-- A submission answering question 1 with option 2 — an option of a
different question. -/
def demoForm (qid : Nat) : Opt Nat := if qid == 1 then some 2 else none

end QuizMaster

/-- C2: for every quiz and instant, `is_available` is true iff the quiz is
unscheduled, or else the current instant lies inside the scheduling window,
an absent bound imposing no restriction on its side and both boundary
instants counting as available. -/
theorem QuizMaster.is_available_iff_window (q : QuizMaster.Quiz)
    (now : QuizMaster.Time) :
    q.is_available now = true ↔
      (q.is_scheduled = false ∨
        ((∀ s, q.start_datetime = some s → s ≤ now) ∧
         (∀ e, q.end_datetime = some e → now ≤ e))) := by
  unfold QuizMaster.Quiz.is_available
  cases hs : q.is_scheduled with
  | false => simp [hs]
  | true =>
    cases hst : q.start_datetime <;> cases hen : q.end_datetime <;>
      simp [hs, hst, hen]

/-- C3: an attempt counts as passed exactly when it carries a stored score
that is at least the quiz's pass percentage; equality with the threshold
passes, and a missing score never passes.  `passed` is a function of the
loaded row, computed on each read, not a stored column. -/
theorem QuizMaster.passed_iff_score_ge_threshold
    (a : QuizMaster.QuizAttempt) (q : QuizMaster.Quiz) :
    a.passed q = true ↔ ∃ s, a.score = some s ∧ q.pass_percentage ≤ s := by
  unfold QuizMaster.QuizAttempt.passed
  cases h : a.score with
  | none => simp
  | some s => simp

/-- C9 (code bug): run in December, the monthly report task returns the
error status — even for a user with attempts inside the current-month
window, and even for a user with none (where the claim requires the
no-data status) — because the December branch of the window filter passes
a bare datetime instead of an upper-bound comparison (tasks.py line 171).
Run one month earlier on the same shape of data, the task aggregates the
window as claimed. -/
theorem QuizMaster.monthly_report_december_errors :
    QuizMaster.send_monthly_report QuizMaster.decAttempts QuizMaster.decRunTime
        = QuizMaster.ReportResult.error
    ∧ QuizMaster.send_monthly_report [] QuizMaster.decRunTime
        = QuizMaster.ReportResult.error
    ∧ QuizMaster.send_monthly_report QuizMaster.novAttempts QuizMaster.novRunTime
        = QuizMaster.ReportResult.success 1 1 0 80 80 := by
  refine ⟨rfl, rfl, ?_⟩
  simp only [QuizMaster.send_monthly_report, QuizMaster.monthFilterCriteria,
    QuizMaster.applyCriteria, QuizMaster.criterionPred, QuizMaster.novAttempts,
    QuizMaster.novRunTime, QuizMaster.truthyScores, QuizMaster.MDate.geB,
    QuizMaster.MDate.ltB, QuizMaster.MAttempt.passedB]
  norm_num [List.filter, List.filterMap, List.countP, List.countP.go,
    QuizMaster.MAttempt.passedB]

/-- Soundness of the scoring loop: when it completes without raising, the
counter equals the number of questions whose submitted option row is marked
correct, and every produced response row carries the current attempt id and
an answered question id. -/
theorem QuizMaster.gradeQuestions_sound (opts : List QuizMaster.Option)
    (form : Nat → QuizMaster.Opt Nat) (aid : Nat) :
    ∀ (qs : List QuizMaster.Question) (rs : List QuizMaster.QuizResponse) (c : Nat),
      QuizMaster.gradeQuestions opts form aid qs = some (rs, c) →
      c = qs.countP (QuizMaster.selectedCorrect opts form) ∧
      ∀ r ∈ rs, r.attempt_id = aid ∧ form r.question_id ≠ none := by
  intro qs
  induction qs with
  | nil =>
    intro rs c h
    simp [QuizMaster.gradeQuestions] at h
    obtain ⟨h1, h2⟩ := h
    subst h1
    subst h2
    simp
  | cons q qs ih =>
    intro rs c h
    unfold QuizMaster.gradeQuestions at h
    split at h
    next hf =>
      obtain ⟨hc, hr⟩ := ih rs c h
      refine ⟨?_, hr⟩
      simp [List.countP_cons, QuizMaster.selectedCorrect, hf, hc]
    next oid hf =>
      split at h
      next ho => exact absurd h (by simp)
      next o ho =>
        split at h
        next hg => exact absurd h (by simp)
        next p rs0 c0 hg =>
          simp only [Option.some.injEq, Prod.mk.injEq] at h
          obtain ⟨hrs, hc⟩ := h
          obtain ⟨ihc, ihr⟩ := ih rs0 c0 hg
          constructor
          · rw [← hc, ihc, List.countP_cons]
            simp only [QuizMaster.selectedCorrect, hf, ho]
            cases o.is_correct <;> (simp; try omega)
          · intro r hr
            rw [← hrs] at hr
            rcases List.mem_cons.mp hr with h1 | h1
            · subst h1
              exact ⟨rfl, by simp [hf]⟩
            · exact ihr r h1

/-- C1: when a submission commits, the recorded score is the number of
questions whose selected option row is marked correct, divided by the
quiz's question count, times 100; a quiz with zero questions records score
0 with no division; an unanswered question yields no response row and is
simply absent from the correct count. -/
theorem QuizMaster.submit_quiz_records_ratio_score
    (env : QuizMaster.Env) (u : QuizMaster.User) (qid : Nat)
    (form : Nat → QuizMaster.Opt Nat) (st : QuizMaster.St)
    (quiz : QuizMaster.Quiz) (aid : Nat) (att : QuizMaster.QuizAttempt)
    (rs : List QuizMaster.QuizResponse) (c : Nat)
    (hu : u.is_admin = false)
    (hq : QuizMaster.findQuiz env qid = some quiz)
    (hs : QuizMaster.lookupSession st u.id = some aid)
    (ha0 : aid ≠ 0)
    (hg : QuizMaster.gradeQuestions env.options form aid quiz.questions = some (rs, c))
    (hatt : st.attempts.find? (fun a => a.id == aid) = some att) :
    (QuizMaster.submit_quiz env u qid form st).1.attempts
        = st.attempts.map (fun a =>
            if a.id == aid then
              { a with score := some (QuizMaster.scorePercentage c quiz.questions.length),
                       is_completed := true }
            else a)
    ∧ QuizMaster.scorePercentage c quiz.questions.length
        = (if 0 < quiz.questions.length then
            ((quiz.questions.countP (QuizMaster.selectedCorrect env.options form) : ℚ)
              / (quiz.questions.length : ℚ)) * 100
          else 0)
    ∧ (quiz.questions = [] →
        QuizMaster.scorePercentage c quiz.questions.length = 0)
    ∧ (QuizMaster.submit_quiz env u qid form st).1.responses = st.responses ++ rs
    ∧ (∀ q ∈ quiz.questions, form q.id = none → ∀ r ∈ rs, r.question_id ≠ q.id) := by
  have hsound := QuizMaster.gradeQuestions_sound env.options form aid quiz.questions rs c hg
  have hbeq : (aid == 0) = false := by simpa using ha0
  refine ⟨?_, ?_, ?_, ?_, ?_⟩
  · simp [QuizMaster.submit_quiz, hu, hq, hs, hbeq, hg, hatt]
  · rw [hsound.1]
    rfl
  · intro he
    simp [he, QuizMaster.scorePercentage]
  · simp [QuizMaster.submit_quiz, hu, hq, hs, hbeq, hg, hatt]
  · intro q hqmem hfnone r hrmem heq
    have h2 := (hsound.2 r hrmem).2
    rw [heq, hfnone] at h2
    exact h2 rfl

/-- Witness for C1 at a two-question quiz answered once correctly: the
attempt row is recorded with score (1/2) × 100 and completion. -/
theorem QuizMaster.submit_quiz_records_ratio_score_witness :
    (QuizMaster.submit_quiz QuizMaster.envW QuizMaster.uW 1 QuizMaster.formW QuizMaster.stW).1.attempts
      = QuizMaster.stW.attempts.map (fun a =>
          if a.id == 1 then
            { a with score := some (QuizMaster.scorePercentage 1 2), is_completed := true }
          else a) :=
  (QuizMaster.submit_quiz_records_ratio_score QuizMaster.envW QuizMaster.uW 1
    QuizMaster.formW QuizMaster.stW QuizMaster.quizW 1 QuizMaster.attW QuizMaster.rsW 1
    rfl rfl rfl (by decide) rfl rfl).1

/-- C10: whether a question is counted correct, and the response row
recorded for it, depend only on the id and `is_correct` flag of the option
row named by the submitted id — rewriting every option's owning
`question_id` arbitrarily changes nothing — and concretely, submitting for
question 1 the id of the correct option owned by question 2 counts
question 1 correct and records a response pairing question 1 with that
foreign option. -/
theorem QuizMaster.score_ignores_option_question_link :
    (∀ (opts : List QuizMaster.Option) (f : Nat → Nat)
       (form : Nat → QuizMaster.Opt Nat) (aid : Nat)
       (qs : List QuizMaster.Question),
       QuizMaster.gradeQuestions
           (opts.map (fun o => { o with question_id := f o.id })) form aid qs
         = QuizMaster.gradeQuestions opts form aid qs)
    ∧ QuizMaster.gradeQuestions QuizMaster.demoOpts QuizMaster.demoForm 7 [⟨1⟩]
        = some ([⟨7, 1, 2⟩], 1)
    ∧ QuizMaster.findOption QuizMaster.demoOpts 2 = some ⟨2, 2, true⟩ := by
  refine ⟨?_, rfl, rfl⟩
  intro opts f form aid qs
  induction qs with
  | nil => rfl
  | cons q qs ih =>
    unfold QuizMaster.gradeQuestions
    cases hf : form q.id with
    | none =>
      simp only [hf]
      exact ih
    | some oid =>
      have hfind : QuizMaster.findOption
            (opts.map (fun o => { o with question_id := f o.id })) oid
          = (QuizMaster.findOption opts oid).map
              (fun o => { o with question_id := f o.id }) := by
        unfold QuizMaster.findOption
        rw [List.find?_map]
        rfl
      simp only [hf, hfind]
      cases ho : QuizMaster.findOption opts oid with
      | none => simp
      | some o =>
        simp only [Option.map_some']
        rw [ih]

/-- C5 (amended): when the quiz info page's checks pass (non-admin user,
quiz found, available, registration open, no completed attempt, at least
one question) and the user holds an incomplete attempt, `take_quiz`
force-completes that attempt with score 0 and flashes a warning — but it
renders the quiz info page rather than redirecting to results; resumption
is impossible because the attempt is now completed. -/
theorem QuizMaster.take_quiz_stale_force_completed
    (env : QuizMaster.Env) (u : QuizMaster.User) (qid : Nat)
    (now : QuizMaster.Time) (st : QuizMaster.St)
    (quiz : QuizMaster.Quiz) (inc : QuizMaster.QuizAttempt)
    (hu : u.is_admin = false)
    (hq : QuizMaster.findQuiz env qid = some quiz)
    (hav : quiz.is_available now = true)
    (hcomp : QuizMaster.findCompleted st u.id qid = none)
    (hqs : quiz.questions.isEmpty = false)
    (hinc : QuizMaster.findIncomplete st u.id qid = some inc) :
    QuizMaster.take_quiz env u qid now st
      = ({ st with attempts := st.attempts.map (fun a =>
             if a.id == inc.id then { a with is_completed := true, score := some 0 }
             else a) },
         QuizMaster.Page.renderTakeQuiz qid,
         [(QuizMaster.Msg.incompleteRecorded, QuizMaster.Sev.warning)]) := by
  simp [QuizMaster.take_quiz, hu, hq, hav, hcomp, hqs, hinc,
    QuizMaster.Quiz.registration_open]

/-- Witness for C5: the concrete stale attempt is recorded as completed
with score 0 and the info page is rendered. -/
theorem QuizMaster.take_quiz_stale_force_completed_witness :
    QuizMaster.take_quiz QuizMaster.envW QuizMaster.uW 1 0 QuizMaster.stW
      = (⟨[⟨1, 5, 1, 0, some 0, true⟩], [], [(5, 1)], 2⟩,
         QuizMaster.Page.renderTakeQuiz 1,
         [(QuizMaster.Msg.incompleteRecorded, QuizMaster.Sev.warning)]) := by
  rw [QuizMaster.take_quiz_stale_force_completed QuizMaster.envW QuizMaster.uW 1 0
    QuizMaster.stW QuizMaster.quizW QuizMaster.attW rfl rfl rfl rfl rfl rfl]
  rfl

/-- Counterexample for C5 as stated: at a store where the user re-enters
the info page holding an incomplete attempt, the handler's response is the
rendered quiz info page, not a redirect to a results page. -/
theorem QuizMaster.take_quiz_stale_renders_info_not_results :
    (QuizMaster.take_quiz QuizMaster.envW QuizMaster.uW 1 0 QuizMaster.stW).2.1
        = QuizMaster.Page.renderTakeQuiz 1
    ∧ ((QuizMaster.take_quiz QuizMaster.envW QuizMaster.uW 1 0 QuizMaster.stW).2.1).isRedirectResults
        = false :=
  ⟨rfl, rfl⟩

/-- C6 (amended): the start transition creates a fresh incomplete attempt
exactly when the requesting user is not an admin, the quiz exists, it is
available, registration is open, and no completed attempt exists for the
pair.  The question count is never consulted: the creation branch inserts
the new row after deleting the pair's incomplete attempts whether or not
`quiz.questions` is empty (the zero-question rejection lives only in the
`take_quiz` info page). -/
theorem QuizMaster.start_conditions_iff (env : QuizMaster.Env)
    (u : QuizMaster.User) (qid : Nat) (now : QuizMaster.Time)
    (st : QuizMaster.St) :
    ((QuizMaster.start_quiz_attempt env u qid now st).2.1
        = QuizMaster.Page.renderAttemptQuiz qid st.nextId
      ↔ (u.is_admin = false ∧ ∃ quiz, QuizMaster.findQuiz env qid = some quiz
          ∧ quiz.is_available now = true ∧ quiz.registration_open = true
          ∧ QuizMaster.findCompleted st u.id qid = none))
    ∧ ((QuizMaster.start_quiz_attempt env u qid now st).2.1
          = QuizMaster.Page.renderAttemptQuiz qid st.nextId →
        (QuizMaster.start_quiz_attempt env u qid now st).1.attempts
          = st.attempts.filter (fun a => !(QuizMaster.pairPred u.id qid a))
              ++ [⟨st.nextId, u.id, qid, now, none, false⟩]) := by
  unfold QuizMaster.start_quiz_attempt
  cases hadm : u.is_admin with
  | true => simp [hadm]
  | false =>
    cases hq : QuizMaster.findQuiz env qid with
    | none => simp [hq]
    | some quiz =>
      cases hav : quiz.is_available now with
      | false => simp [hq, hav]
      | true =>
        cases hcomp : QuizMaster.findCompleted st u.id qid with
        | some prev => simp [hq, hav, hcomp, QuizMaster.Quiz.registration_open]
        | none => simp [hq, hav, hcomp, QuizMaster.Quiz.registration_open]

/-- Witness for C6: at a store holding an incomplete attempt for the pair,
the start transition deletes it and inserts the fresh attempt row. -/
theorem QuizMaster.start_conditions_iff_witness :
    (QuizMaster.start_quiz_attempt QuizMaster.envW QuizMaster.uW 1 0 QuizMaster.stW).1.attempts
      = QuizMaster.stW.attempts.filter (fun a => !(QuizMaster.pairPred 5 1 a))
          ++ [⟨2, 5, 1, 0, none, false⟩] :=
  (QuizMaster.start_conditions_iff QuizMaster.envW QuizMaster.uW 1 0 QuizMaster.stW).2 rfl

/-- Counterexample for C6 as stated: starting an available quiz that has
zero questions is not rejected — a fresh attempt row is created and the
attempt page rendered. -/
theorem QuizMaster.start_zero_questions_creates_attempt :
    (QuizMaster.start_quiz_attempt QuizMaster.envNoQ QuizMaster.uW 2 0 QuizMaster.St.init).1.attempts
        = [⟨1, 5, 2, 0, none, false⟩]
    ∧ (QuizMaster.start_quiz_attempt QuizMaster.envNoQ QuizMaster.uW 2 0 QuizMaster.St.init).2.1
        = QuizMaster.Page.renderAttemptQuiz 2 1 :=
  ⟨rfl, rfl⟩

/-- C7 (amended): a request to start a quiz the user has already completed
never changes the store (no new attempt row); when the quiz is currently
available the request is rejected with the already-completed warning and a
redirect to the prior attempt's results; when the quiz is unavailable the
availability check fires first and the user is redirected to the quiz list
instead. -/
theorem QuizMaster.start_completed_rejected_no_row (env : QuizMaster.Env)
    (u : QuizMaster.User) (qid : Nat) (now : QuizMaster.Time)
    (st : QuizMaster.St) (quiz : QuizMaster.Quiz) (prev : QuizMaster.QuizAttempt)
    (hu : u.is_admin = false)
    (hq : QuizMaster.findQuiz env qid = some quiz)
    (hprev : QuizMaster.findCompleted st u.id qid = some prev) :
    (QuizMaster.start_quiz_attempt env u qid now st).1 = st
    ∧ (quiz.is_available now = true →
        QuizMaster.start_quiz_attempt env u qid now st
          = (st, QuizMaster.Page.redirectResults prev.id,
             [(QuizMaster.Msg.alreadyCompleted, QuizMaster.Sev.warning)]))
    ∧ (quiz.is_available now = false →
        (QuizMaster.start_quiz_attempt env u qid now st).2.1
          = QuizMaster.Page.redirectQuizList) := by
  unfold QuizMaster.start_quiz_attempt
  cases hav : quiz.is_available now with
  | false => simp [hu, hq, hav]
  | true => simp [hu, hq, hav, hprev, QuizMaster.Quiz.registration_open]

/-- Witness for C7 at an available quiz: the rejected request leaves the
store unchanged and redirects to the prior attempt's results. -/
theorem QuizMaster.start_completed_rejected_no_row_witness :
    QuizMaster.start_quiz_attempt QuizMaster.envW QuizMaster.uW 1 0 QuizMaster.stDone
      = (QuizMaster.stDone, QuizMaster.Page.redirectResults 3,
         [(QuizMaster.Msg.alreadyCompleted, QuizMaster.Sev.warning)]) :=
  (QuizMaster.start_completed_rejected_no_row QuizMaster.envW QuizMaster.uW 1 0
    QuizMaster.stDone QuizMaster.quizW QuizMaster.attDone rfl rfl rfl).2.1 rfl

/-- Counterexample for C7 as stated: a user holding a completed attempt on
a quiz whose scheduling window has ended is redirected to the quiz list,
not to the prior results (the store is still unchanged). -/
theorem QuizMaster.start_completed_unavailable_redirects_list :
    QuizMaster.findCompleted QuizMaster.stPast 5 3 = some QuizMaster.attDonePast
    ∧ (QuizMaster.start_quiz_attempt QuizMaster.envPast QuizMaster.uW 3 100 QuizMaster.stPast).2.1
        = QuizMaster.Page.redirectQuizList
    ∧ ((QuizMaster.start_quiz_attempt QuizMaster.envPast QuizMaster.uW 3 100 QuizMaster.stPast).2.1).isRedirectResults
        = false
    ∧ (QuizMaster.start_quiz_attempt QuizMaster.envPast QuizMaster.uW 3 100 QuizMaster.stPast).1
        = QuizMaster.stPast :=
  ⟨rfl, rfl, rfl, rfl⟩

/-- C8: the cleanup job deletes exactly the incomplete attempts created
strictly more than 24 hours (86400 s) before the current time, returns the
count of removed attempts, and removes the response rows of exactly the
removed attempts; in particular an incomplete attempt aged 24 h 1 s is
removed while one aged 23 h 59 min is retained. -/
theorem QuizMaster.cleanup_deletes_exactly_older_24h (st : QuizMaster.St)
    (now : QuizMaster.Time) :
    (QuizMaster.cleanup_incomplete_attempts st now).1.attempts
        = st.attempts.filter (fun a =>
            !(!a.is_completed && decide (now - a.date_taken > 86400)))
    ∧ (QuizMaster.cleanup_incomplete_attempts st now).2
        = (st.attempts.filter (fun a =>
            !a.is_completed && decide (now - a.date_taken > 86400))).length
    ∧ (QuizMaster.cleanup_incomplete_attempts st now).1.responses
        = st.responses.filter (fun r =>
            !(((st.attempts.filter (fun a =>
                  !a.is_completed && decide (now - a.date_taken > 86400))).map
                QuizMaster.QuizAttempt.id).contains r.attempt_id))
    ∧ (∀ a ∈ st.attempts, a.is_completed = false → a.date_taken = now - 86401 →
        a ∉ (QuizMaster.cleanup_incomplete_attempts st now).1.attempts)
    ∧ (∀ a ∈ st.attempts, a.is_completed = false → a.date_taken = now - 86340 →
        a ∈ (QuizMaster.cleanup_incomplete_attempts st now).1.attempts) := by
  have key : ∀ x y : Int, (decide (y < x - 86400)) = (decide (x - y > 86400)) := by
    intro x y
    exact decide_eq_decide.mpr (by omega)
  have key2 : ∀ x : Int, x - 86401 < x - 86400 := by
    intro x
    omega
  have key3 : ∀ x : Int, ¬ (x - 86340 < x - 86400) := by
    intro x
    omega
  have hpt : ∀ a : QuizMaster.QuizAttempt,
      QuizMaster.stalePred now a
        = (!a.is_completed && decide (now - a.date_taken > 86400)) := by
    intro a
    unfold QuizMaster.stalePred
    congr 1
    exact key now a.date_taken
  have hfil : st.attempts.filter (QuizMaster.stalePred now)
      = st.attempts.filter (fun a =>
          !a.is_completed && decide (now - a.date_taken > 86400)) :=
    List.filter_congr (fun a _ => hpt a)
  refine ⟨?_, ?_, ?_, ?_, ?_⟩
  · exact List.filter_congr (fun a _ => by rw [hpt a])
  · show (st.attempts.filter (QuizMaster.stalePred now)).length = _
    rw [hfil]
  · show st.responses.filter _ = _
    rw [hfil]
  · intro a ha hc hd
    have hstale : QuizMaster.stalePred now a = true := by
      unfold QuizMaster.stalePred
      rw [hc, hd]
      simp only [Bool.not_false, Bool.true_and, decide_eq_true_eq]
      exact key2 now
    simp only [QuizMaster.cleanup_incomplete_attempts, List.mem_filter]
    rintro ⟨-, hkeep⟩
    rw [hstale] at hkeep
    simp at hkeep
  · intro a ha hc hd
    have hstale : QuizMaster.stalePred now a = false := by
      unfold QuizMaster.stalePred
      rw [hc, hd]
      simp only [Bool.not_false, Bool.true_and, decide_eq_false_iff_not]
      exact key3 now
    simp only [QuizMaster.cleanup_incomplete_attempts, List.mem_filter]
    exact ⟨ha, by rw [hstale]; rfl⟩

/-- Witness for C8 at run time 200000: the attempt created at 113599
(24 h 1 s old) is removed, the one created at 113660 (23 h 59 min old) is
retained. -/
theorem QuizMaster.cleanup_deletes_exactly_older_24h_witness :
    QuizMaster.attStale ∉ (QuizMaster.cleanup_incomplete_attempts QuizMaster.stClean 200000).1.attempts
    ∧ QuizMaster.attFresh ∈ (QuizMaster.cleanup_incomplete_attempts QuizMaster.stClean 200000).1.attempts :=
  ⟨(QuizMaster.cleanup_deletes_exactly_older_24h QuizMaster.stClean 200000).2.2.2.1
      QuizMaster.attStale (by decide) rfl (by decide),
   (QuizMaster.cleanup_deletes_exactly_older_24h QuizMaster.stClean 200000).2.2.2.2
      QuizMaster.attFresh (by decide) rfl (by decide)⟩

/-- The store after `take_quiz` is either unchanged or has one incomplete
attempt of the requesting pair recorded as completed. -/
theorem QuizMaster.take_quiz_state_cases (env : QuizMaster.Env)
    (u : QuizMaster.User) (qid : Nat) (now : QuizMaster.Time)
    (st : QuizMaster.St) :
    (QuizMaster.take_quiz env u qid now st).1 = st ∨
    ∃ inc, QuizMaster.findIncomplete st u.id qid = some inc ∧
      (QuizMaster.take_quiz env u qid now st).1
        = { st with attempts := st.attempts.map (fun a =>
            if a.id == inc.id then { a with is_completed := true, score := some 0 }
            else a) } := by
  unfold QuizMaster.take_quiz
  split
  · exact Or.inl rfl
  · split
    · exact Or.inl rfl
    · split
      · exact Or.inl rfl
      · split
        · exact Or.inl rfl
        · split
          · exact Or.inl rfl
          · split
            · exact Or.inl rfl
            · split
              next inc hinc => exact Or.inr ⟨inc, hinc, rfl⟩
              next => exact Or.inl rfl

/-- The store after `submit_quiz` is either unchanged or has the session's
attempt recorded as completed with the computed score and the produced
response rows appended. -/
theorem QuizMaster.submit_quiz_state_cases (env : QuizMaster.Env)
    (u : QuizMaster.User) (qid : Nat) (form : Nat → QuizMaster.Opt Nat)
    (st : QuizMaster.St) :
    (QuizMaster.submit_quiz env u qid form st).1 = st ∨
    ∃ quiz aid rs c att,
      QuizMaster.findQuiz env qid = some quiz ∧
      QuizMaster.gradeQuestions env.options form aid quiz.questions = some (rs, c) ∧
      st.attempts.find? (fun a => a.id == aid) = some att ∧
      (QuizMaster.submit_quiz env u qid form st).1
        = { st with
            attempts := st.attempts.map (fun a =>
              if a.id == aid then
                { a with
                  score := some (QuizMaster.scorePercentage c quiz.questions.length),
                  is_completed := true }
              else a),
            responses := st.responses ++ rs,
            session := st.session.filter (fun p => p.1 != u.id) } := by
  unfold QuizMaster.submit_quiz
  split
  · exact Or.inl rfl
  · split
    · exact Or.inl rfl
    · next quiz hq =>
      split
      · exact Or.inl rfl
      · next aid hs =>
        split
        · exact Or.inl rfl
        · split
          · exact Or.inl rfl
          · next p rs c hg =>
            split
            · exact Or.inl rfl
            · next att hatt =>
              exact Or.inr ⟨quiz, aid, rs, c, att, hq, hg, hatt, rfl⟩

/-- The store after `start_quiz_attempt` is either unchanged or has the
pair's incomplete attempts (and their responses) deleted, a fresh
incomplete attempt appended, and the session pointed at it. -/
theorem QuizMaster.start_quiz_state_cases (env : QuizMaster.Env)
    (u : QuizMaster.User) (qid : Nat) (now : QuizMaster.Time)
    (st : QuizMaster.St) :
    (QuizMaster.start_quiz_attempt env u qid now st).1 = st ∨
    (QuizMaster.start_quiz_attempt env u qid now st).1
      = { attempts := st.attempts.filter (fun a => !(QuizMaster.pairPred u.id qid a))
            ++ [⟨st.nextId, u.id, qid, now, none, false⟩],
          responses := st.responses.filter (fun r =>
            !(((st.attempts.filter (QuizMaster.pairPred u.id qid)).map
                QuizMaster.QuizAttempt.id).contains r.attempt_id)),
          session := (u.id, st.nextId) :: st.session.filter (fun p => p.1 != u.id),
          nextId := st.nextId + 1 } := by
  unfold QuizMaster.start_quiz_attempt
  split
  · exact Or.inl rfl
  · split
    · exact Or.inl rfl
    · split
      · exact Or.inl rfl
      · split
        · exact Or.inl rfl
        · split
          · exact Or.inl rfl
          · exact Or.inr rfl

/-- `List.contains` agrees with membership on attempt-id lists. -/
theorem QuizMaster.contains_iff_mem_nat (l : List Nat) (x : Nat) :
    l.contains x = true ↔ x ∈ l := by
  simp [List.contains]

/-- A completion-style update (setting `is_completed := true` on the row
with a given id) never increases any pair's incomplete-attempt count. -/
theorem QuizMaster.countP_complete_map (l : List QuizMaster.QuizAttempt)
    (uid qid : Nat) (g : QuizMaster.QuizAttempt → QuizMaster.QuizAttempt)
    (hg : ∀ a, QuizMaster.pairPred uid qid (g a) = true →
      QuizMaster.pairPred uid qid a = true) :
    (l.map g).countP (QuizMaster.pairPred uid qid)
      ≤ l.countP (QuizMaster.pairPred uid qid) := by
  rw [List.countP_map]
  exact List.countP_mono_left (fun a _ h => hg a h)

/-- The row updates used by `take_quiz` and `submit_quiz` set
`is_completed := true` on the targeted row and keep every row's id. -/
theorem QuizMaster.completeUpd_pred (uid qid aid : Nat) (sc : QuizMaster.Opt ℚ) :
    (∀ a : QuizMaster.QuizAttempt,
      QuizMaster.pairPred uid qid
        (if a.id == aid then { a with is_completed := true, score := sc } else a) = true →
      QuizMaster.pairPred uid qid a = true)
    ∧ (∀ a : QuizMaster.QuizAttempt,
        (if a.id == aid then { a with is_completed := true, score := sc } else a).id
          = a.id) := by
  constructor
  · intro a h
    by_cases hid : (a.id == aid) = true
    · rw [if_pos hid] at h
      exact absurd h (by simp [QuizMaster.pairPred])
    · rwa [if_neg hid] at h
  · intro a
    by_cases hid : (a.id == aid) = true
    · rw [if_pos hid]
    · rw [if_neg hid]

/-- No row of a list survives filtering by the negation of the predicate it
satisfies. -/
theorem QuizMaster.countP_filter_not (l : List QuizMaster.QuizAttempt)
    (p : QuizMaster.QuizAttempt → Bool) :
    (l.filter (fun a => !(p a))).countP p = 0 := by
  refine List.countP_eq_zero.mpr ?_
  intro a ha
  have := (List.mem_filter.mp ha).2
  simp only [Bool.not_eq_true'] at this
  simp [this]

/-- Every operation of the attempt lifecycle preserves both store
invariants: at most one incomplete attempt per pair, and every response row
attached to an existing attempt row. -/
theorem QuizMaster.step_preserves (env : QuizMaster.Env) (st : QuizMaster.St)
    (op : QuizMaster.Op)
    (h1 : QuizMaster.InvAtMostOne st) (h2 : QuizMaster.RespAttached st) :
    QuizMaster.InvAtMostOne (QuizMaster.step env st op)
      ∧ QuizMaster.RespAttached (QuizMaster.step env st op) := by
  cases op with
  | takeOp u qid now =>
    show QuizMaster.InvAtMostOne (QuizMaster.take_quiz env u qid now st).1
      ∧ QuizMaster.RespAttached (QuizMaster.take_quiz env u qid now st).1
    rcases QuizMaster.take_quiz_state_cases env u qid now st with hcase | ⟨inc, -, hcase⟩
    · rw [hcase]
      exact ⟨h1, h2⟩
    · rw [hcase]
      constructor
      · intro uid' qid'
        refine Nat.le_trans (QuizMaster.countP_complete_map st.attempts uid' qid' _ ?_)
          (h1 uid' qid')
        exact (QuizMaster.completeUpd_pred uid' qid' inc.id (some 0)).1
      · intro r hr
        obtain ⟨a, ha, haid⟩ := h2 r hr
        refine ⟨_, List.mem_map_of_mem _ ha, ?_⟩
        rw [(QuizMaster.completeUpd_pred u.id qid inc.id (some 0)).2 a]
        exact haid
  | startOp u qid now =>
    show QuizMaster.InvAtMostOne (QuizMaster.start_quiz_attempt env u qid now st).1
      ∧ QuizMaster.RespAttached (QuizMaster.start_quiz_attempt env u qid now st).1
    rcases QuizMaster.start_quiz_state_cases env u qid now st with hcase | hcase
    · rw [hcase]
      exact ⟨h1, h2⟩
    · rw [hcase]
      constructor
      · intro uid' qid'
        simp only [List.countP_append]
        rcases Decidable.em (uid' = u.id ∧ qid' = qid) with hpair | hpair
        · obtain ⟨he1, he2⟩ := hpair
          subst he1
          subst he2
          rw [QuizMaster.countP_filter_not]
          simp [List.countP_cons, QuizMaster.pairPred]
        · have hnew : QuizMaster.pairPred uid' qid'
              (⟨st.nextId, u.id, qid, now, none, false⟩ : QuizMaster.QuizAttempt) = false := by
            cases hb : QuizMaster.pairPred uid' qid'
                (⟨st.nextId, u.id, qid, now, none, false⟩ : QuizMaster.QuizAttempt)
            · rfl
            · have : u.id = uid' ∧ qid = qid' := by
                simpa [QuizMaster.pairPred] using hb
              exact absurd ⟨this.1.symm, this.2.symm⟩ hpair
          have hz : ([(⟨st.nextId, u.id, qid, now, none, false⟩ : QuizMaster.QuizAttempt)].countP
              (QuizMaster.pairPred uid' qid')) = 0 := by
            simp [List.countP_cons, hnew]
          rw [hz]
          have hle : ((st.attempts.filter (fun a => !(QuizMaster.pairPred u.id qid a))).countP
              (QuizMaster.pairPred uid' qid'))
                ≤ st.attempts.countP (QuizMaster.pairPred uid' qid') := by
            rw [List.countP_filter]
            exact List.countP_mono_left (fun a _ h => by
              rw [Bool.and_eq_true] at h
              exact h.1)
          have hinv := h1 uid' qid'
          omega
      · intro r hr
        have hmem := List.mem_filter.mp hr
        obtain ⟨a, ha, haid⟩ := h2 r hmem.1
        have hnotdel : QuizMaster.pairPred u.id qid a = false := by
          cases hb : QuizMaster.pairPred u.id qid a
          · rfl
          · exfalso
            have hin : a.id ∈ (st.attempts.filter (QuizMaster.pairPred u.id qid)).map
                QuizMaster.QuizAttempt.id :=
              List.mem_map_of_mem _ (List.mem_filter.mpr ⟨ha, hb⟩)
            have hcontains := (QuizMaster.contains_iff_mem_nat _ r.attempt_id).mpr
              (haid ▸ hin)
            rw [hcontains] at hmem
            exact absurd hmem.2 (by simp)
        refine ⟨a, List.mem_append_left _ (List.mem_filter.mpr ⟨ha, ?_⟩), haid⟩
        simp [hnotdel]
  | submitOp u qid form =>
    show QuizMaster.InvAtMostOne (QuizMaster.submit_quiz env u qid form st).1
      ∧ QuizMaster.RespAttached (QuizMaster.submit_quiz env u qid form st).1
    rcases QuizMaster.submit_quiz_state_cases env u qid form st with hcase |
      ⟨quiz, aid, rs, c, att, -, hg, hatt, hcase⟩
    · rw [hcase]
      exact ⟨h1, h2⟩
    · rw [hcase]
      have hsound := QuizMaster.gradeQuestions_sound env.options form aid quiz.questions rs c hg
      constructor
      · intro uid' qid'
        refine Nat.le_trans (QuizMaster.countP_complete_map st.attempts uid' qid' _ ?_)
          (h1 uid' qid')
        intro a h
        by_cases hid2 : (a.id == aid) = true
        · rw [if_pos hid2] at h
          exact absurd h (by simp [QuizMaster.pairPred])
        · rwa [if_neg hid2] at h
      · intro r hr
        rcases List.mem_append.mp hr with hold | hnew
        · obtain ⟨a, ha, haid⟩ := h2 r hold
          refine ⟨_, List.mem_map_of_mem _ ha, ?_⟩
          by_cases hid2 : (a.id == aid) = true
          · rw [if_pos hid2]
            exact haid
          · rw [if_neg hid2]
            exact haid
        · have hattid : att.id = aid := by
            have := List.find?_some hatt
            simpa using this
          have hattmem := List.mem_of_find?_eq_some hatt
          have hraid : r.attempt_id = aid := (hsound.2 r hnew).1
          refine ⟨_, List.mem_map_of_mem _ hattmem, ?_⟩
          rw [if_pos (by simp [hattid])]
          show att.id = r.attempt_id
          rw [hraid, hattid]
  | cleanupOp now =>
    show QuizMaster.InvAtMostOne (QuizMaster.cleanup_incomplete_attempts st now).1
      ∧ QuizMaster.RespAttached (QuizMaster.cleanup_incomplete_attempts st now).1
    constructor
    · intro uid' qid'
      show ((st.attempts.filter (fun a => !(QuizMaster.stalePred now a))).countP
        (QuizMaster.pairPred uid' qid')) ≤ 1
      refine Nat.le_trans ?_ (h1 uid' qid')
      rw [List.countP_filter]
      exact List.countP_mono_left (fun a _ h => by
        rw [Bool.and_eq_true] at h
        exact h.1)
    · intro r hr
      have hmem := List.mem_filter.mp hr
      obtain ⟨a, ha, haid⟩ := h2 r hmem.1
      have hnotstale : QuizMaster.stalePred now a = false := by
        cases hb : QuizMaster.stalePred now a
        · rfl
        · exfalso
          have hin : a.id ∈ (st.attempts.filter (QuizMaster.stalePred now)).map
              QuizMaster.QuizAttempt.id :=
            List.mem_map_of_mem _ (List.mem_filter.mpr ⟨ha, hb⟩)
          have hcontains := (QuizMaster.contains_iff_mem_nat _ r.attempt_id).mpr
            (haid ▸ hin)
          rw [hcontains] at hmem
          exact absurd hmem.2 (by simp)
      exact ⟨a, List.mem_filter.mpr ⟨ha, by simp [hnotstale]⟩, haid⟩

/-- Both store invariants hold along every operation sequence from the
empty database. -/
theorem QuizMaster.runOps_inv (env : QuizMaster.Env) (ops : List QuizMaster.Op) :
    QuizMaster.InvAtMostOne (QuizMaster.runOps env ops)
      ∧ QuizMaster.RespAttached (QuizMaster.runOps env ops) := by
  have key : ∀ (l : List QuizMaster.Op) (st : QuizMaster.St),
      QuizMaster.InvAtMostOne st → QuizMaster.RespAttached st →
      QuizMaster.InvAtMostOne (l.foldl (QuizMaster.step env) st)
        ∧ QuizMaster.RespAttached (l.foldl (QuizMaster.step env) st) := by
    intro l
    induction l with
    | nil => exact fun st a b => ⟨a, b⟩
    | cons op l ih =>
      intro st a b
      rw [List.foldl_cons]
      obtain ⟨a2, b2⟩ := QuizMaster.step_preserves env st op a b
      exact ih _ a2 b2
  refine key ops QuizMaster.St.init ?_ ?_
  · intro uid qid
    simp [QuizMaster.St.init]
  · intro r hr
    simp [QuizMaster.St.init] at hr

/-- C4: along every operation sequence of the attempt lifecycle from the
empty database, each (user, quiz) pair has at most one incomplete attempt,
and every response row belongs to an existing attempt (so deleted attempts
lost their responses with them).  Moreover the only attempt-creating
operation, the start transition, first deletes all incomplete attempts of
its pair: from an arbitrary store, whenever it creates an attempt the pair
is left with exactly one incomplete attempt. -/
theorem QuizMaster.at_most_one_incomplete_attempt :
    (∀ (env : QuizMaster.Env) (ops : List QuizMaster.Op),
      QuizMaster.InvAtMostOne (QuizMaster.runOps env ops)
        ∧ QuizMaster.RespAttached (QuizMaster.runOps env ops))
    ∧ (∀ (env : QuizMaster.Env) (u : QuizMaster.User) (qid : Nat)
         (now : QuizMaster.Time) (st : QuizMaster.St),
        (QuizMaster.start_quiz_attempt env u qid now st).2.1
            = QuizMaster.Page.renderAttemptQuiz qid st.nextId →
        ((QuizMaster.start_quiz_attempt env u qid now st).1.attempts.countP
            (QuizMaster.pairPred u.id qid)) = 1) := by
  constructor
  · exact QuizMaster.runOps_inv
  · intro env u qid now st hpage
    unfold QuizMaster.start_quiz_attempt at hpage ⊢
    cases hadm : u.is_admin with
    | true =>
      simp [hadm] at hpage
    | false =>
      simp only [hadm] at hpage ⊢
      cases hq : QuizMaster.findQuiz env qid with
      | none =>
        simp [hq] at hpage
      | some quiz =>
        simp only [hq] at hpage ⊢
        cases hav : quiz.is_available now with
        | false =>
          simp [hav] at hpage
        | true =>
          simp only [hav] at hpage ⊢
          cases hcomp : QuizMaster.findCompleted st u.id qid with
          | some prev =>
            simp [QuizMaster.Quiz.registration_open, hcomp] at hpage
          | none =>
            simp only [QuizMaster.Quiz.registration_open, hcomp, Bool.not_true,
              Bool.not_false, Bool.false_eq_true, if_false] at hpage ⊢
            rw [List.countP_append, QuizMaster.countP_filter_not]
            simp [List.countP_cons, QuizMaster.pairPred]

/-- Witness for C4's start conjunct: from a store holding two incomplete
attempts of the pair, a successful start leaves exactly one. -/
theorem QuizMaster.at_most_one_incomplete_attempt_witness :
    ((QuizMaster.start_quiz_attempt QuizMaster.envW QuizMaster.uW 1 0 QuizMaster.stTwo).1.attempts.countP
        (QuizMaster.pairPred 5 1)) = 1 :=
  QuizMaster.at_most_one_incomplete_attempt.2 QuizMaster.envW QuizMaster.uW 1 0
    QuizMaster.stTwo rfl
